import Mathlib

/-!
# Verification of the EESync-toolbox core

A shallow embedding of the core of the EESync-toolbox pipeline:

* `acquisition/shimmer_timebase.py` — per-device tick-to-seconds conversion
  with 16-bit rollover absorption (`device_time_s`);
* `processing/sync_controller.py` — the quantizer (`_quantize`,
  `_decimals_from_delta`, `_floor_to_decimals`) and the sticky-event trigger
  API (`set_event`, `trigger_spike`);
* `export/export_sink.py` — the CSV export sink: packet handlers
  (`_on_sample`, `_on_event`, `_on_spike`), the commit loop (`_commit_until`),
  and the cell formatter (`_fmt_val`).

Machine floats are modeled as exact rationals; Python `None` and the
non-finite floats are modeled by an explicit value type.  Python dicts are
modeled as association lists whose update removes the old binding, so lookups
are latest-wins and key sets carry no duplicates; every place the source
iterates a dict it first sorts the keys, so dict iteration order is never
observable.  The consumer threads are modeled by their sequential packet
processing order (one packet handled, then one commit pass, as in
`ExportSink._run`).  File I/O is modeled by an append-only write log; the two
CSV files are its two projections.
-/

set_option maxHeartbeats 1000000

/-! ## Values and cell formatting (`export_sink.py::_fmt_val`) -/

/-- A sample channel value as received by the sink: absent (Python `None`),
a non-finite float, or a finite number modeled as an exact rational. -/
inductive Val
  | absent
  | nan
  | inf
  | ninf
  | num (q : ℚ)
deriving DecidableEq

/-- The six fractional digit characters of `n % 1000000`, most significant
first (the digits Python prints after the decimal point with `:.6f`). -/
def fracDigits6 (n : ℕ) : String :=
  ⟨[Nat.digitChar (n / 100000 % 10), Nat.digitChar (n / 10000 % 10),
    Nat.digitChar (n / 1000 % 10), Nat.digitChar (n / 100 % 10),
    Nat.digitChar (n / 10 % 10), Nat.digitChar (n % 10)]⟩

/-- Python `f"{v:.6f}"` for a finite value, over exact rationals: the value is
rounded half-up to 6 decimal places and printed as `[-]int.dddddd`, with the
sign taken from the value.  (CPython rounds the binary double half-even; no
claim in this development depends on tie behavior, so half-up on the exact
rational stands in for it.)  The rounded scaled magnitude `⌊|q|·10^6 + 1/2⌋`
is computed on the reduced fraction `|q.num| / q.den` as a natural-number
division — the theorem `fmtFixed6_scaled_eq_floor` below proves the two
formulas equal; the `q.num < 0` sign test is `q < 0`. -/
def fmtFixed6 (q : ℚ) : String :=
  let n : ℕ := (2000000 * q.num.natAbs + q.den) / (2 * q.den)
  ((if q.num < 0 then "-" else "") ++ toString (n / 1000000)) ++ "." ++ fracDigits6 (n % 1000000)

/-- `ExportSink._fmt_val`: `None` maps to the empty cell, everything else goes
through `f"{float(v):.6f}"`.  On the non-finite floats that format call
produces `"nan"`, `"inf"`, `"-inf"` — not the empty string. -/
def _fmt_val : Val → String
  | Val.absent => ""
  | Val.nan => "nan"
  | Val.inf => "inf"
  | Val.ninf => "-inf"
  | Val.num q => fmtFixed6 q

/-! ## Association-list model of Python dicts -/

/-- Lookup of key `k` (Python `d.get(k)` / `d[k]`). -/
def alGet {κ α : Type} [DecidableEq κ] : List (κ × α) → κ → Option α
  | [], _ => Option.none
  | p :: rest, k => if p.1 = k then some p.2 else alGet rest k

/-- Update/insert of key `k` (Python `d[k] = v`): the old binding for `k`, if
any, is removed, so keys stay unique and lookups are latest-wins. -/
def alInsert {κ α : Type} [DecidableEq κ] (m : List (κ × α)) (k : κ) (v : α) :
    List (κ × α) :=
  m.filter (fun p => p.1 ≠ k) ++ [(k, v)]

/-- Removal of key `k` (Python `d.pop(k, None)`). -/
def alErase {κ α : Type} [DecidableEq κ] (m : List (κ × α)) (k : κ) :
    List (κ × α) :=
  m.filter (fun p => p.1 ≠ k)

/-- The key list of the map (Python `d.keys()`). -/
def alKeys {κ α : Type} (m : List (κ × α)) : List κ :=
  m.map (fun p => p.1)

/-- Python `sorted` on integer keys, modeled by Mathlib's insertion sort. -/
def sortInts (l : List ℤ) : List ℤ :=
  List.insertionSort (fun a b => a ≤ b) l

/-! ## Export sink state (`export_sink.py::ExportSink`) -/

/-- One committed row of the synced CSV: frame index `k`, formatted `t_q`, one
cell per configured channel (in header order), then the `spike` and `event`
columns. -/
structure SyncedRow where
  k : ℤ
  tq : String
  cells : List String
  spike : String
  event : String
deriving DecidableEq

/-- One row of the markers sidecar CSV. -/
structure MarkerRow where
  k : ℤ
  tq : String
  event : String
  spike : String
  source : String
deriving DecidableEq

/-- A single CSV write, in the order the sink performs them. -/
inductive WriteEntry
  | row (r : SyncedRow)
  | marker (m : MarkerRow)
deriving DecidableEq

/-- The mutable state of `ExportSink`, restricted to what reaches the CSV
files.  The session is modeled as started with both CSV writers open and the
synced header frozen to `channels` (as `start()` leaves it); the flush
bookkeeping (`_pending_committed`, `_last_flush_time`) only batches I/O and
never changes file contents, so it is omitted. -/
structure SinkState where
  delta : ℚ
  L : ℤ
  channels : List String
  stickyEvent : String
  kSeenMax : ℤ
  openRows : List (ℤ × List (String × String))
  tqByK : List (ℤ × ℚ)
  eventChanges : List (ℤ × String)
  initialMarkerEmitted : Bool
  log : List WriteEntry

/-- `ExportSink.__init__` (the parts that reach the files): `k_seen_max = -1`,
empty buffers, sticky event at the default event, no initial marker yet. -/
def initSink (delta : ℚ) (L : ℤ) (channels : List String) (defaultEvent : String) :
    SinkState :=
  { delta := delta, L := L, channels := channels, stickyEvent := defaultEvent,
    kSeenMax := -1, openRows := [], tqByK := [], eventChanges := [],
    initialMarkerEmitted := false, log := [] }

/-- The data rows of a write log, in write order. -/
def rowsOf (l : List WriteEntry) : List SyncedRow :=
  l.filterMap (fun e => match e with
    | WriteEntry.row r => some r
    | WriteEntry.marker _ => Option.none)

/-- The marker rows of a write log, in write order. -/
def markerRowsOf (l : List WriteEntry) : List MarkerRow :=
  l.filterMap (fun e => match e with
    | WriteEntry.marker m => some m
    | WriteEntry.row _ => Option.none)

/-- The synced CSV: the data rows of the write log, in write order. -/
def syncedOf (st : SinkState) : List SyncedRow :=
  rowsOf st.log

/-- The markers CSV: the marker rows of the write log, in write order. -/
def markersOf (st : SinkState) : List MarkerRow :=
  markerRowsOf st.log

/-- The markers-CSV rows whose `source` column is `"sync"`. -/
def syncMarkersOf (st : SinkState) : List MarkerRow :=
  (markersOf st).filter (fun m => m.source = "sync")

/-- Keep the write-log entries relevant to the initial-marker contract: data
rows and markers with source `"sync"`. -/
def keepSyncOrRow : WriteEntry → Bool
  | WriteEntry.row _ => true
  | WriteEntry.marker m => m.source == "sync"

/-- `ExportSink._write_marker`: append one markers-CSV row
`[k, fmt(t_q), event, spike, source]`. -/
def _write_marker (st : SinkState) (k : ℤ) (t_q : ℚ)
    (event spike source : String) : SinkState :=
  { st with log := st.log ++ [WriteEntry.marker ⟨k, _fmt_val (Val.num t_q), event, spike, source⟩] }

/-- `ExportSink._on_sample`: raise `k_seen_max`, record `t_q` for `k`, and
merge the formatted channel values into the open row for `k` (only channels of
the frozen header; latest-wins per channel). -/
def _on_sample (st : SinkState) (k : ℤ) (t_q : ℚ) (dev : String)
    (pairs : List (String × Val)) : SinkState :=
  let row0 := (alGet st.openRows k).getD []
  let row := pairs.foldl (fun r pv =>
    let key := dev ++ ":" ++ pv.1
    if key ∈ st.channels then alInsert r key (_fmt_val pv.2) else r) row0
  { st with kSeenMax := max st.kSeenMax k,
            tqByK := alInsert st.tqByK k t_q,
            openRows := alInsert st.openRows k row }

/-- `ExportSink._on_event`: record `event_changes[k] = current_event_after`
and immediately append a markers row; the open rows, `tq_by_k` and
`k_seen_max` are untouched. -/
def _on_event (st : SinkState) (k : ℤ) (t_q : ℚ)
    (currentAfter source : String) : SinkState :=
  _write_marker
    { st with eventChanges := alInsert st.eventChanges k currentAfter }
    k t_q currentAfter "" source

/-- `ExportSink._on_spike`: set the `spike` cell of the open row for `k`,
record `t_q`, raise `k_seen_max`, and append a markers row. -/
def _on_spike (st : SinkState) (k : ℤ) (t_q : ℚ)
    (label source : String) : SinkState :=
  let row := (alGet st.openRows k).getD []
  _write_marker
    { st with openRows := alInsert st.openRows k (alInsert row "spike" label),
              tqByK := alInsert st.tqByK k t_q,
              kSeenMax := max st.kSeenMax k }
    k t_q "" label source

/-- The sticky-application loop inside `ExportSink._commit_until`: apply every
pending change in `event_changes` with key `≤ k` in ascending key order,
updating `sticky_event` and removing each applied change. -/
def applyPending (st : SinkState) (k : ℤ) : SinkState :=
  (sortInts ((alKeys st.eventChanges).filter (fun kk => kk ≤ k))).foldl
    (fun s kk =>
      match alGet s.eventChanges kk with
      | some v => { s with stickyEvent := v, eventChanges := alErase s.eventChanges kk }
      | Option.none => s) st

/-- The body of the `for k in ks` loop of `ExportSink._commit_until`: fetch
`t_q` (grid fallback), apply pending sticky changes, emit the one-time initial
`"sync"` marker, build the row from the open-row map (empty cells for missing
channels), write it, and drop `k` from the buffers. -/
def commitOne (st : SinkState) (k : ℤ) : SinkState :=
  let t_q := (alGet st.tqByK k).getD (k * st.delta)
  let st1 := applyPending st k
  let st2 :=
    if st1.initialMarkerEmitted then st1
    else { _write_marker st1 k t_q st1.stickyEvent "" "sync" with
             initialMarkerEmitted := true }
  let rowMap := (alGet st2.openRows k).getD []
  let r : SyncedRow :=
    ⟨k, _fmt_val (Val.num t_q),
     st2.channels.map (fun ch => (alGet rowMap ch).getD ""),
     (alGet rowMap "spike").getD "",
     st2.stickyEvent⟩
  { st2 with openRows := alErase st2.openRows k,
             tqByK := alErase st2.tqByK k,
             log := st2.log ++ [WriteEntry.row r] }

/-- `ExportSink._commit_until(k_commit)`: nothing to do when both buffers are
empty; otherwise commit every `k ≤ k_commit` present in `tq_by_k` in ascending
order, then drop every remaining entry of `event_changes` with key
`≤ k_commit` (the source comments call them "already committed"). -/
def _commit_until (st : SinkState) (k_commit : ℤ) : SinkState :=
  if st.openRows.isEmpty && st.tqByK.isEmpty then st
  else
    let ks := sortInts ((alKeys st.tqByK).filter (fun k => k ≤ k_commit))
    let st1 := ks.foldl commitOne st
    { st1 with eventChanges := st1.eventChanges.filter (fun p => ¬ p.1 ≤ k_commit) }

/-- A tagged payload as delivered to the sink's queue
(`("sample", k, t_q, device, pairs)`, `("event", k, t_q, label, source,
current_event_after)`, `("spike", k, t_q, label, source)`). -/
inductive Packet
  | sample (k : ℤ) (t_q : ℚ) (dev : String) (pairs : List (String × Val))
  | event (k : ℤ) (t_q : ℚ) (label source currentAfter : String)
  | spike (k : ℤ) (t_q : ℚ) (label source : String)
deriving DecidableEq

/-- Dispatch on the packet tag, as in `ExportSink._run`.  `_on_event` ignores
the `label` field and uses `current_event_after`. -/
def handlePacket (st : SinkState) : Packet → SinkState
  | Packet.sample k t_q dev pairs => _on_sample st k t_q dev pairs
  | Packet.event k t_q _label source currentAfter => _on_event st k t_q currentAfter source
  | Packet.spike k t_q label source => _on_spike st k t_q label source

/-- One iteration of `ExportSink._run` that received a packet: handle it, then
commit up to `k_seen_max - L`. -/
def sinkStep (st : SinkState) (p : Packet) : SinkState :=
  let st1 := handlePacket st p
  _commit_until st1 (st1.kSeenMax - st1.L)

/-- The consumer loop over a finite arrival sequence. -/
def runSink (st : SinkState) (ps : List Packet) : SinkState :=
  ps.foldl sinkStep st

/-- The `source` field of a marker packet (`none` for samples, which carry no
source). -/
def packetSource : Packet → Option String
  | Packet.sample _ _ _ _ => Option.none
  | Packet.event _ _ _ source _ => some source
  | Packet.spike _ _ _ source => some source

/-- Does the packet carry frame index `k0` into the row buffers?  Only sample
and spike packets do; event packets never touch the buffers. -/
def packetTouches (k0 : ℤ) : Packet → Bool
  | Packet.sample k _ _ _ => k == k0
  | Packet.event _ _ _ _ _ => false
  | Packet.spike k _ _ _ => k == k0

/-- The initial-marker contract as a function of the emitted flag and the
write log: before the first commit the log holds no data row and no `"sync"`
marker; afterwards the filtered log is exactly one `"sync"` marker followed by
the data rows in commit order, and that marker repeats the `k`, `t_q` and
`event` columns of the first committed row. -/
def SyncMarkerInvCore (emitted : Bool) (log : List WriteEntry) : Prop :=
  match emitted with
  | true => ∃ m r0 rest, rowsOf log = r0 :: rest ∧
      log.filter keepSyncOrRow =
        WriteEntry.marker m :: (r0 :: rest).map WriteEntry.row ∧
      (markerRowsOf log).filter (fun mm => mm.source = "sync") = [m] ∧
      m.k = r0.k ∧ m.tq = r0.tq ∧ m.event = r0.event ∧ m.spike = "" ∧
      m.source = "sync"
  | false => log.filter keepSyncOrRow = [] ∧ rowsOf log = [] ∧
      (markerRowsOf log).filter (fun mm => mm.source = "sync") = []

/-- The initial-marker contract for a sink state. -/
def SyncMarkerInv (st : SinkState) : Prop :=
  SyncMarkerInvCore st.initialMarkerEmitted st.log

/-- No trace of frame index `k0` in the sink: neither pending in `tq_by_k`
nor already committed to the synced CSV. -/
def NoRowAt (k0 : ℤ) (st : SinkState) : Prop :=
  (∀ p ∈ st.tqByK, p.1 ≠ k0) ∧ (∀ r ∈ syncedOf st, r.k ≠ k0)

/-! ## Quantizer and triggers (`processing/sync_controller.py`) -/

/-- Python `int()` on a rational: truncation toward zero. -/
def pyInt (x : ℚ) : ℤ :=
  if 0 ≤ x then ⌊x⌋ else ⌈x⌉

/-- `SyncManager._floor_to_decimals`: floor to a fixed number of decimals
(plain floor when `decimals ≤ 0`). -/
def _floor_to_decimals (x : ℚ) (decimals : ℤ) : ℚ :=
  if decimals ≤ 0 then (⌊x⌋ : ℚ)
  else
    let p : ℚ := 10 ^ decimals.toNat
    (⌊x * p⌋ : ℚ) / p

/-- `SyncManager._decimals_from_delta`: `max(0, min(9, ceil(-log10 delta) + 2))`
for `delta > 0`, else 6.  Over the exact rationals `ceil(-log10 delta)` is
`-(Int.log 10 delta)`; the theorem for claim C5 proves this agrees with the
real-number formula `⌈-Real.logb 10 delta⌉`. -/
def _decimals_from_delta (delta : ℚ) : ℤ :=
  if 0 < delta then max 0 (min 9 (-(Int.log 10 delta) + 2)) else 6

/-- `SyncManager._quantize`: `k = int(t/delta + 0.5)` and
`t_q = _floor_to_decimals(k * delta, tq_decimals)`. -/
def _quantize (delta : ℚ) (tqDecimals : ℤ) (t_host_est : ℚ) : ℤ × ℚ :=
  let k := pyInt (t_host_est / delta + 1/2)
  (k, _floor_to_decimals ((k : ℚ) * delta) tqDecimals)

/-- The `SyncManager` state observable through the trigger API.  `sessionT0`
and `delta` are `none` outside a started session (`_host_rel_now` and
`_quantize` raise exactly when they are unset). -/
structure SyncState where
  sessionT0 : Option ℚ
  delta : Option ℚ
  tqDecimals : ℤ
  defaultEvent : String
  currentEvent : String
deriving DecidableEq

/-- The Python exceptions the trigger API can raise. -/
inductive SyncErr
  | valueError
  | runtimeError
deriving DecidableEq

/-- An `("event", k, t_q, label, source, current_event_after)` payload; the
source emits the post-toggle sticky value in both the `label` and the
`current_event_after` fields. -/
structure EventPayload where
  k : ℤ
  t_q : ℚ
  label : String
  source : String
  currentAfter : String
deriving DecidableEq

/-- A `("spike", k, t_q, label, source)` payload. -/
structure SpikePayload where
  k : ℤ
  t_q : ℚ
  label : String
  source : String
deriving DecidableEq

/-- `SyncManager.set_event(label, source)`.  `tNow` stands for the value
`time.monotonic() - session_t0` read inside `_host_rel_now`; an exception
leaves the state exactly as it was, since the source raises before any
mutation.  Toggle rule: pressing the current non-default label returns to the
default; pressing the current default label is a no-op; any other label is
adopted.  A payload is emitted in every non-raising case. -/
def set_event (st : SyncState) (label source : String) (tNow : ℚ) :
    SyncState × Except SyncErr EventPayload :=
  if source = "" then (st, Except.error SyncErr.valueError)
  else
    match st.sessionT0, st.delta with
    | Option.none, _ => (st, Except.error SyncErr.runtimeError)
    | some _, Option.none => (st, Except.error SyncErr.runtimeError)
    | some _, some delta =>
      let kq := _quantize delta st.tqDecimals tNow
      let cur :=
        if label = st.currentEvent then
          (if st.currentEvent ≠ st.defaultEvent then st.defaultEvent else st.currentEvent)
        else label
      ({ st with currentEvent := cur },
       Except.ok ⟨kq.1, kq.2, cur, source, cur⟩)

/-- `SyncManager.trigger_spike(label, source)`: quantize "now" and emit; no
state mutation. -/
def trigger_spike (st : SyncState) (label source : String) (tNow : ℚ) :
    SyncState × Except SyncErr SpikePayload :=
  if source = "" then (st, Except.error SyncErr.valueError)
  else
    match st.sessionT0, st.delta with
    | Option.none, _ => (st, Except.error SyncErr.runtimeError)
    | some _, Option.none => (st, Except.error SyncErr.runtimeError)
    | some _, some delta =>
      let kq := _quantize delta st.tqDecimals tNow
      (st, Except.ok ⟨kq.1, kq.2, label, source⟩)

/-! ## Shimmer timebase (`acquisition/shimmer_timebase.py`) -/

/-- `_TICK_RATE_HZ`: device tick frequency. -/
def TICK_RATE_HZ : ℚ := 32768

/-- `_COUNTER_MOD`: 16-bit counter modulus. -/
def COUNTER_MOD : ℤ := 65536

/-- The per-key `_STATE` entry: anchor tick, last raw tick, accumulated
rollover offset. -/
structure TimebaseState where
  start : Option ℤ
  last : Option ℤ
  offset : ℤ
deriving DecidableEq

/-- The state after `reset` / before the first packet. -/
def tbInit : TimebaseState :=
  ⟨Option.none, Option.none, 0⟩

/-- `device_time_s`: anchor on the first tick; afterwards add `COUNTER_MOD` to
the offset whenever the raw tick drops below the last one; return
`(offset + (raw - start)) / TICK_RATE_HZ` together with the updated state. -/
def device_time_s (st : TimebaseState) (tsRaw : ℤ) : TimebaseState × ℚ :=
  match st.start with
  | Option.none =>
    (⟨some tsRaw, some tsRaw, 0⟩, ((0 + (tsRaw - tsRaw) : ℤ) : ℚ) / TICK_RATE_HZ)
  | some s =>
    let offset :=
      match st.last with
      | some l => if tsRaw < l then st.offset + COUNTER_MOD else st.offset
      | Option.none => st.offset
    (⟨some s, some tsRaw, offset⟩, ((offset + (tsRaw - s) : ℤ) : ℚ) / TICK_RATE_HZ)

/-- Feed a tick sequence through one per-key state, collecting the returned
seconds. -/
def runTicks (st : TimebaseState) : List ℤ → List ℚ
  | [] => []
  | t :: ts =>
    let r := device_time_s st t
    r.2 :: runTicks r.1 ts

/-! ## Concrete arrival traces used in the analysis -/

/-- Samples at k = 0..7 (values 0.0..7.0 on channel `A:x`), then a late
sample at k = 2 (value 99.0) arriving after k = 7 has been seen; with L = 3
the watermark at that moment is k_commit = 4 ≥ 2. -/
def C1trace : List Packet :=
  ((List.range 8).map (fun i =>
    Packet.sample (i : ℤ) (i : ℚ) "A" [("x", Val.num (i : ℚ))])) ++
  [Packet.sample 2 2 "A" [("x", Val.num 99)]]

/-- Samples at k = 0..7, an event change to "TASK" at k = 8, then samples at
k = 50 and k = 53 after a gap.  When k = 50 raises the watermark to 47, the
commit batch is k = 5,6,7 (all < 8), and the cleanup pass of `_commit_until`
pops the never-applied change at k = 8. -/
def C2trace : List Packet :=
  ((List.range 8).map (fun i =>
    Packet.sample (i : ℤ) (i : ℚ) "A" [("x", Val.num (i : ℚ))])) ++
  [Packet.event 8 8 "TASK" "keyboard" "TASK",
   Packet.sample 50 50 "A" [("x", Val.num 1)],
   Packet.sample 53 53 "A" [("x", Val.num 2)]]

/-- An event change to "TASK" at k = 0 recorded before any sample, then
samples at k = 0..3; with L = 3 the first committed row is k = 0, and the
change at k = 0 is applied before the initial marker is written. -/
def C4ctrace : List Packet :=
  Packet.event 0 0 "TASK" "keyboard" "TASK" ::
  ((List.range 4).map (fun i =>
    Packet.sample (i : ℤ) (i : ℚ) "A" [("x", Val.num (i : ℚ))]))

/-- Samples at k = 0..4 with no marker packets at all. -/
def C4wtrace : List Packet :=
  (List.range 5).map (fun i =>
    Packet.sample (i : ℤ) (i : ℚ) "A" [("x", Val.num (i : ℚ))])

/-- Samples at k = 0,1,2,4,5,6,7 and one event packet at k = 3: frame 3
receives only an event payload, never a sample or spike. -/
def C10wtrace : List Packet :=
  [Packet.sample 0 0 "A" [("x", Val.num 0)],
   Packet.sample 1 1 "A" [("x", Val.num 1)],
   Packet.sample 2 2 "A" [("x", Val.num 2)],
   Packet.event 3 3 "TASK_1" "keyboard" "TASK_1",
   Packet.sample 4 4 "A" [("x", Val.num 4)],
   Packet.sample 5 5 "A" [("x", Val.num 5)],
   Packet.sample 6 6 "A" [("x", Val.num 6)],
   Packet.sample 7 7 "A" [("x", Val.num 7)]]

/-! ## Helper lemmas -/

theorem fmtFixed6_scaled_eq_floor (q : ℚ) :
    (2000000 * q.num.natAbs + q.den) / (2 * q.den) = (⌊|q| * 1000000 + 1/2⌋).toNat := by
  have hd : (0:ℚ) < (q.den : ℚ) := by exact_mod_cast q.pos
  have habs : |q| = (q.num.natAbs : ℚ) / (q.den : ℚ) := by
    conv_lhs => rw [← Rat.num_div_den q]
    rw [abs_div, Int.cast_natAbs, Int.cast_abs, abs_of_pos hd]
  have key : |q| * 1000000 + 1/2
      = ((2000000 * q.num.natAbs + q.den : ℕ) : ℚ) / ((2 * q.den : ℕ) : ℚ) := by
    rw [habs]
    have hd' : (q.den : ℚ) ≠ 0 := ne_of_gt hd
    push_cast
    field_simp
    ring
  rw [key, Rat.floor_natCast_div_natCast, ← Int.natCast_div, Int.toNat_natCast]

theorem digitChar_mod_isDigit (x : ℕ) : (Nat.digitChar (x % 10)).isDigit = true := by
  have h : x % 10 < 10 := Nat.mod_lt _ (by norm_num)
  have hall : ∀ y : Fin 10, (Nat.digitChar (y : ℕ)).isDigit = true := by decide
  exact hall ⟨x % 10, h⟩

theorem fracDigits6_length (n : ℕ) : (fracDigits6 n).length = 6 := rfl

theorem fracDigits6_digits (n : ℕ) : (fracDigits6 n).toList.all Char.isDigit = true := by
  simp only [fracDigits6, String.toList, List.all_cons, List.all_nil, Bool.and_true]
  simp [digitChar_mod_isDigit]

theorem intLog_ratCast_real (q : ℚ) (hq : 0 < q) :
    Int.log 10 ((q : ℝ)) = Int.log 10 q := by
  have hq' : (0:ℝ) < (q:ℝ) := by exact_mod_cast hq
  have hcast : ∀ x : ℤ, ((((10:ℕ):ℚ) ^ x : ℚ) : ℝ) = ((10:ℕ):ℝ) ^ x := by
    intro x
    push_cast
    norm_num
  apply le_antisymm
  · rw [← Int.zpow_le_iff_le_log (by norm_num) hq, ← Rat.cast_le (K := ℝ), hcast]
    exact Int.zpow_log_le_self (by norm_num) hq'
  · rw [← Int.zpow_le_iff_le_log (by norm_num) hq', ← hcast, Rat.cast_le]
    exact Int.zpow_log_le_self (by norm_num) hq

theorem ceil_neg_logb_eq (q : ℚ) (hq : 0 < q) :
    ⌈-Real.logb 10 (q : ℝ)⌉ = -Int.log 10 q := by
  rw [Int.ceil_neg]
  congr 1
  have h10 : ((10:ℕ):ℝ) = (10:ℝ) := by norm_num
  rw [← h10, Real.floor_logb_natCast (le_of_lt (by exact_mod_cast hq : (0:ℝ) < (q:ℝ)))]
  exact intLog_ratCast_real q hq

theorem set_event_started (st : SyncState) (label source : String) (tNow t0 delta : ℚ)
    (h0 : st.sessionT0 = some t0) (hdl : st.delta = some delta) (hs : source ≠ "") :
    set_event st label source tNow =
      ({ st with currentEvent :=
          if label = st.currentEvent then
            (if st.currentEvent ≠ st.defaultEvent then st.defaultEvent else st.currentEvent)
          else label },
       Except.ok ⟨(_quantize delta st.tqDecimals tNow).1,
                  (_quantize delta st.tqDecimals tNow).2,
                  (if label = st.currentEvent then
                    (if st.currentEvent ≠ st.defaultEvent then st.defaultEvent else st.currentEvent)
                  else label), source,
                  (if label = st.currentEvent then
                    (if st.currentEvent ≠ st.defaultEvent then st.defaultEvent else st.currentEvent)
                  else label)⟩) := by
  simp [set_event, hs, h0, hdl]

/-! ## Claim C1 — lookahead drop of late samples -/

/-- C1: the claim says a sample arriving with `k ≤ k_seen_max − L` is dropped
and none of its values appears in the synced CSV.  Evaluating the sink on
`C1trace` (late sample at k = 2, value 99.0, arriving when the watermark is
4): the code instead re-opens the bucket and commits a second, out-of-order
row k = 2 carrying the late value `99.000000`. -/
theorem C1_late_sample_not_dropped :
    (syncedOf (runSink (initSink 1 3 ["A:x"] "REST") C1trace)).map
      (fun r => (r.k, r.cells)) =
    [(0, ["0.000000"]), (1, ["1.000000"]), (2, ["2.000000"]), (3, ["3.000000"]),
     (4, ["4.000000"]), (2, ["99.000000"])] := by decide

/-! ## Claim C2 — sticky-event propagation -/

/-- C2: the claim says a committed row at index k carries the latest event
change recorded at k' ≤ k.  Evaluating the sink on `C2trace`: the change to
"TASK" at k = 8 is popped unapplied by the cleanup pass of `_commit_until`
(8 ≤ k_commit = 47 while the batch only commits k = 5,6,7), so the later
committed row k = 50 carries "REST" although the latest change at k' ≤ 50 is
the one to "TASK" at k' = 8. -/
theorem C2_pending_change_lost :
    (syncedOf (runSink (initSink 1 3 ["A:x"] "REST") C2trace)).map
      (fun r => (r.k, r.event)) =
    [(0, "REST"), (1, "REST"), (2, "REST"), (3, "REST"), (4, "REST"),
     (5, "REST"), (6, "REST"), (7, "REST"), (50, "REST")] := by decide

/-! ## Claim C3 — cell formatting -/

/-- C3 counterexample: a NaN value is written as the cell `"nan"`, not as the
empty cell the claim requires. -/
theorem C3_nan_counterexample :
    _fmt_val Val.nan = "nan" ∧ _fmt_val Val.nan ≠ "" := ⟨rfl, by decide⟩

/-- C3 amended: an absent value maps to the empty cell; the non-finite values
map to `"nan"` / `"inf"` / `"-inf"` (not to the empty cell); every finite
numeric value is written in fixed-point notation with exactly 6 digits after
the decimal point. -/
theorem C3_fmt_val_amended :
    _fmt_val Val.absent = "" ∧ _fmt_val Val.nan = "nan" ∧
    _fmt_val Val.inf = "inf" ∧ _fmt_val Val.ninf = "-inf" ∧
    ∀ q : ℚ, ∃ a b : String, _fmt_val (Val.num q) = a ++ "." ++ b ∧
      b.length = 6 ∧ b.toList.all Char.isDigit = true := by
  refine ⟨rfl, rfl, rfl, rfl, fun q => ?_⟩
  exact ⟨(if q.num < 0 then "-" else "") ++
           toString ((2000000 * q.num.natAbs + q.den) / (2 * q.den) / 1000000),
         fracDigits6 ((2000000 * q.num.natAbs + q.den) / (2 * q.den) % 1000000),
         rfl, fracDigits6_length _, fracDigits6_digits _⟩

/-! ## Claim C5 — quantizer -/

/-- C5: for t ≥ 0 and δ > 0 the quantizer computes `k = ⌊t/δ + 1/2⌋`
(half-up; Python `int()` truncation coincides with floor on the non-negative
argument) and `t_q = ⌊k·δ·10^D⌋ / 10^D`, with
`D = clamp(⌈-log10 δ⌉ + 2, 0, 9)` as computed once per session by
`_decimals_from_delta`. -/
theorem C5_quantizer (delta t : ℚ) (hd : 0 < delta) (ht : 0 ≤ t) :
    (_quantize delta (_decimals_from_delta delta) t).1 = ⌊t / delta + 1/2⌋ ∧
    (_quantize delta (_decimals_from_delta delta) t).2 =
      (⌊(⌊t / delta + 1/2⌋ : ℚ) * delta * 10 ^ (_decimals_from_delta delta).toNat⌋ : ℚ) /
        10 ^ (_decimals_from_delta delta).toNat ∧
    _decimals_from_delta delta = max 0 (min 9 (⌈-Real.logb 10 (delta : ℝ)⌉ + 2)) := by
  have harg : (0:ℚ) ≤ t / delta + 1/2 := by positivity
  have hD : _decimals_from_delta delta = max 0 (min 9 (-(Int.log 10 delta) + 2)) := by
    simp [_decimals_from_delta, hd]
  have hD0 : 0 ≤ _decimals_from_delta delta := by rw [hD]; exact le_max_left _ _
  have hk : pyInt (t / delta + 1/2) = ⌊t / delta + 1/2⌋ := by
    unfold pyInt
    rw [if_pos harg]
  refine ⟨?_, ?_, ?_⟩
  · have h1 : (_quantize delta (_decimals_from_delta delta) t).1 = pyInt (t / delta + 1/2) := rfl
    rw [h1, hk]
  · have h2 : (_quantize delta (_decimals_from_delta delta) t).2 =
      _floor_to_decimals ((pyInt (t / delta + 1/2) : ℚ) * delta) (_decimals_from_delta delta) := rfl
    rw [h2, hk]
    by_cases h0 : _decimals_from_delta delta ≤ 0
    · have hz : _decimals_from_delta delta = 0 := le_antisymm h0 hD0
      rw [hz]
      unfold _floor_to_decimals
      norm_num
    · unfold _floor_to_decimals
      rw [if_neg h0]
  · rw [hD, ceil_neg_logb_eq delta hd]

/-- C5 witness at δ = 1/100, t = 3/200. -/
theorem C5_quantizer_witness :
    (0:ℚ) < 1/100 ∧ (0:ℚ) ≤ 3/200 ∧
    ((_quantize (1/100) (_decimals_from_delta (1/100)) (3/200)).1 = ⌊(3/200 : ℚ) / (1/100) + 1/2⌋ ∧
     (_quantize (1/100) (_decimals_from_delta (1/100)) (3/200)).2 =
       (⌊(⌊(3/200 : ℚ) / (1/100) + 1/2⌋ : ℚ) * (1/100) * 10 ^ (_decimals_from_delta (1/100)).toNat⌋ : ℚ) /
         10 ^ (_decimals_from_delta (1/100)).toNat ∧
     _decimals_from_delta (1/100) = max 0 (min 9 (⌈-Real.logb 10 ((1/100 : ℚ) : ℝ)⌉ + 2))) :=
  ⟨by norm_num, by norm_num, C5_quantizer (1/100) (3/200) (by norm_num) (by norm_num)⟩

/-! ## Claim C6 — sticky-event toggle -/

/-- C6: in a started session with non-empty source, `set_event` adopts a
different label, toggles the current non-default label back to the default,
leaves the state unchanged when the pressed label is the current default, and
emits an event payload in every case; in particular two presses of "TASK_7"
from default "REST" yield current_event_after "TASK_7" then "REST". -/
theorem C6_set_event_toggle (st : SyncState) (label source : String) (tNow t0 delta : ℚ)
    (h0 : st.sessionT0 = some t0) (hdl : st.delta = some delta) (hs : source ≠ "") :
    ((label ≠ st.currentEvent → (set_event st label source tNow).1.currentEvent = label) ∧
     (label = st.currentEvent → st.currentEvent ≠ st.defaultEvent →
        (set_event st label source tNow).1.currentEvent = st.defaultEvent) ∧
     (label = st.currentEvent → st.currentEvent = st.defaultEvent →
        (set_event st label source tNow).1 = st) ∧
     (∃ p : EventPayload, (set_event st label source tNow).2 = Except.ok p ∧
        p.source = source ∧ p.currentAfter = (set_event st label source tNow).1.currentEvent)) ∧
    ((set_event ⟨some 0, some 1, 6, "REST", "REST"⟩ "TASK_7" "keyboard" 0).1.currentEvent
        = "TASK_7" ∧
     (set_event (set_event ⟨some 0, some 1, 6, "REST", "REST"⟩ "TASK_7" "keyboard" 0).1
        "TASK_7" "keyboard" 0).1.currentEvent = "REST") := by
  rw [set_event_started st label source tNow t0 delta h0 hdl hs]
  refine ⟨⟨fun hl => ?_, fun hl hd2 => ?_, fun hl hd2 => ?_, ⟨_, rfl, rfl, rfl⟩⟩, ?_, ?_⟩
  · simp [hl]
  · simp [hl, hd2]
  · have hval : (if label = st.currentEvent then
        (if st.currentEvent ≠ st.defaultEvent then st.defaultEvent else st.currentEvent)
        else label) = st.currentEvent := by simp [hl, hd2]
    rw [hval]
  · decide
  · decide

/-- C6 witness: a started session with current event "A", pressing "B". -/
theorem C6_set_event_toggle_witness :
    (⟨some 0, some 1, 6, "REST", "A"⟩ : SyncState).sessionT0 = some 0 ∧
    (⟨some 0, some 1, 6, "REST", "A"⟩ : SyncState).delta = some 1 ∧
    ("kb" : String) ≠ "" ∧
    ((("B" : String) ≠ (⟨some 0, some 1, 6, "REST", "A"⟩ : SyncState).currentEvent →
        (set_event ⟨some 0, some 1, 6, "REST", "A"⟩ "B" "kb" 0).1.currentEvent = "B") ∧
     (("B" : String) = (⟨some 0, some 1, 6, "REST", "A"⟩ : SyncState).currentEvent →
        (⟨some 0, some 1, 6, "REST", "A"⟩ : SyncState).currentEvent ≠
          (⟨some 0, some 1, 6, "REST", "A"⟩ : SyncState).defaultEvent →
        (set_event ⟨some 0, some 1, 6, "REST", "A"⟩ "B" "kb" 0).1.currentEvent =
          (⟨some 0, some 1, 6, "REST", "A"⟩ : SyncState).defaultEvent) ∧
     (("B" : String) = (⟨some 0, some 1, 6, "REST", "A"⟩ : SyncState).currentEvent →
        (⟨some 0, some 1, 6, "REST", "A"⟩ : SyncState).currentEvent =
          (⟨some 0, some 1, 6, "REST", "A"⟩ : SyncState).defaultEvent →
        (set_event ⟨some 0, some 1, 6, "REST", "A"⟩ "B" "kb" 0).1 =
          ⟨some 0, some 1, 6, "REST", "A"⟩) ∧
     (∃ p : EventPayload, (set_event ⟨some 0, some 1, 6, "REST", "A"⟩ "B" "kb" 0).2 = Except.ok p ∧
        p.source = "kb" ∧
        p.currentAfter = (set_event ⟨some 0, some 1, 6, "REST", "A"⟩ "B" "kb" 0).1.currentEvent)) ∧
    ((set_event ⟨some 0, some 1, 6, "REST", "REST"⟩ "TASK_7" "keyboard" 0).1.currentEvent
        = "TASK_7" ∧
     (set_event (set_event ⟨some 0, some 1, 6, "REST", "REST"⟩ "TASK_7" "keyboard" 0).1
        "TASK_7" "keyboard" 0).1.currentEvent = "REST") :=
  ⟨rfl, rfl, by decide,
   C6_set_event_toggle ⟨some 0, some 1, 6, "REST", "A"⟩ "B" "kb" 0 0 1 rfl rfl (by decide)⟩

/-! ## Claim C7 — rollover absorption is monotone -/

theorem runTicks_chain_anchored (ticks : List ℤ) :
    ∀ (s l off : ℤ), 0 ≤ l → l < COUNTER_MOD →
    (∀ t ∈ ticks, 0 ≤ t ∧ t < COUNTER_MOD) →
    List.Chain' (· ≤ ·)
      ((((off + (l - s) : ℤ) : ℚ) / TICK_RATE_HZ) ::
        runTicks ⟨some s, some l, off⟩ ticks) := by
  induction ticks with
  | nil =>
    intro s l off _ _ _
    simp [runTicks]
  | cons t ts ih =>
    intro s l off hl0 hlM h
    obtain ⟨ht0, htM⟩ := h t (List.mem_cons_self t ts)
    have hts : ∀ x ∈ ts, 0 ≤ x ∧ x < COUNTER_MOD :=
      fun x hx => h x (List.mem_cons_of_mem t hx)
    simp only [runTicks, device_time_s]
    by_cases hlt : t < l
    · simp only [if_pos hlt]
      refine List.chain'_cons.2 ⟨?_, ih s t (off + COUNTER_MOD) ht0 htM hts⟩
      have hR : (0:ℚ) < TICK_RATE_HZ := by norm_num [TICK_RATE_HZ]
      rw [div_le_div_iff_of_pos_right hR]
      have hle : (off + (l - s) : ℤ) ≤ (off + COUNTER_MOD + (t - s) : ℤ) := by
        have hM : COUNTER_MOD = 65536 := rfl
        omega
      exact_mod_cast hle
    · simp only [if_neg hlt]
      refine List.chain'_cons.2 ⟨?_, ih s t off ht0 htM hts⟩
      have hR : (0:ℚ) < TICK_RATE_HZ := by norm_num [TICK_RATE_HZ]
      rw [div_le_div_iff_of_pos_right hR]
      have hle : (off + (l - s) : ℤ) ≤ (off + (t - s) : ℤ) := by omega
      exact_mod_cast hle

/-- C7: feeding any raw tick sequence with values in `[0, COUNTER_MOD)`
through one per-key timebase state yields monotonically non-decreasing
seconds; a drop in the raw tick is absorbed by adding `COUNTER_MOD` to the
offset. -/
theorem C7_rollover_monotone (ticks : List ℤ)
    (h : ∀ t ∈ ticks, 0 ≤ t ∧ t < COUNTER_MOD) :
    List.Chain' (· ≤ ·) (runTicks tbInit ticks) := by
  cases ticks with
  | nil => simp [runTicks]
  | cons t ts =>
    obtain ⟨ht0, htM⟩ := h t (List.mem_cons_self t ts)
    have hts : ∀ x ∈ ts, 0 ≤ x ∧ x < COUNTER_MOD :=
      fun x hx => h x (List.mem_cons_of_mem t hx)
    have haux := runTicks_chain_anchored ts t t 0 ht0 htM hts
    simp only [runTicks, device_time_s, tbInit]
    exact haux

/-- C7 witness: the tick sequence 10, 65535, 3, 3 (one wrap, one repeat). -/
theorem C7_rollover_monotone_witness :
    (∀ t ∈ ([10, 65535, 3, 3] : List ℤ), 0 ≤ t ∧ t < COUNTER_MOD) ∧
    List.Chain' (· ≤ ·) (runTicks tbInit [10, 65535, 3, 3]) :=
  ⟨by decide, C7_rollover_monotone [10, 65535, 3, 3] (by decide)⟩

/-! ## Claim C8 — concrete rollover sequence -/

/-- C8 counterexample: the first returned value for raw tick 65530 is 0, not
the claimed 65530/32768 — `device_time_s` subtracts the anchor `start`. -/
theorem C8_first_output_counterexample :
    (runTicks tbInit [65530, 65535, 3, 10]).head? = some 0 ∧
    (0 : ℚ) ≠ 65530 / 32768 := by
  constructor
  · norm_num [runTicks, device_time_s, tbInit, TICK_RATE_HZ]
  · norm_num

/-- C8 amended: the ticks 65530, 65535, 3, 10 map to the seconds 0, 5/32768,
9/32768, 16/32768 (anchor-relative, the wrap absorbed), strictly increasing. -/
theorem C8_rollover_eval :
    runTicks tbInit [65530, 65535, 3, 10] = [0, 5 / 32768, 9 / 32768, 16 / 32768] ∧
    List.Chain' (· < ·) (runTicks tbInit [65530, 65535, 3, 10]) := by
  have h : runTicks tbInit [65530, 65535, 3, 10] = [0, 5/32768, 9/32768, 16/32768] := by
    norm_num [runTicks, device_time_s, tbInit, TICK_RATE_HZ, COUNTER_MOD]
  refine ⟨h, ?_⟩
  rw [h]
  norm_num [List.chain'_cons, List.chain'_singleton]

/-! ## Claim C9 — triggers outside a session -/

/-- C9: with no started session (`session_t0` unset), `set_event` and
`trigger_spike` with a non-empty source raise the runtime error before any
mutation: the state is returned unchanged and no payload is produced. -/
theorem C9_trigger_no_session (st : SyncState) (label source : String) (tNow : ℚ)
    (h0 : st.sessionT0 = Option.none) (hs : source ≠ "") :
    set_event st label source tNow = (st, Except.error SyncErr.runtimeError) ∧
    trigger_spike st label source tNow = (st, Except.error SyncErr.runtimeError) := by
  constructor
  · simp [set_event, hs, h0]
  · simp [trigger_spike, hs, h0]

/-- C9 witness: a stopped-session state and the keyboard source. -/
theorem C9_trigger_no_session_witness :
    (⟨Option.none, Option.none, 6, "REST", "REST"⟩ : SyncState).sessionT0 = Option.none ∧
    ("keyboard" : String) ≠ "" ∧
    (set_event ⟨Option.none, Option.none, 6, "REST", "REST"⟩ "TASK_1" "keyboard" 0 =
      (⟨Option.none, Option.none, 6, "REST", "REST"⟩, Except.error SyncErr.runtimeError) ∧
     trigger_spike ⟨Option.none, Option.none, 6, "REST", "REST"⟩ "TASK_1" "keyboard" 0 =
      (⟨Option.none, Option.none, 6, "REST", "REST"⟩, Except.error SyncErr.runtimeError)) :=
  ⟨rfl, by decide, C9_trigger_no_session _ "TASK_1" "keyboard" 0 rfl (by decide)⟩

/-! ## Structural lemmas on the write log and the buffers -/

theorem rowsOf_append_marker (l : List WriteEntry) (m : MarkerRow) :
    rowsOf (l ++ [WriteEntry.marker m]) = rowsOf l := by
  simp [rowsOf, List.filterMap_append]

theorem rowsOf_append_row (l : List WriteEntry) (r : SyncedRow) :
    rowsOf (l ++ [WriteEntry.row r]) = rowsOf l ++ [r] := by
  simp [rowsOf, List.filterMap_append]

theorem markerRowsOf_append_marker (l : List WriteEntry) (m : MarkerRow) :
    markerRowsOf (l ++ [WriteEntry.marker m]) = markerRowsOf l ++ [m] := by
  simp [markerRowsOf, List.filterMap_append]

theorem markerRowsOf_append_row (l : List WriteEntry) (r : SyncedRow) :
    markerRowsOf (l ++ [WriteEntry.row r]) = markerRowsOf l := by
  simp [markerRowsOf, List.filterMap_append]

theorem alInsert_mem {κ α : Type} [DecidableEq κ] (m : List (κ × α)) (k : κ) (v : α)
    (q : κ × α) (hq : q ∈ alInsert m k v) : q ∈ m ∨ q = (k, v) := by
  unfold alInsert at hq
  rcases List.mem_append.1 hq with h | h
  · exact Or.inl (List.mem_filter.1 h).1
  · simp only [List.mem_singleton] at h
    exact Or.inr h

theorem alErase_mem {κ α : Type} [DecidableEq κ] (m : List (κ × α)) (k : κ)
    (q : κ × α) (hq : q ∈ alErase m k) : q ∈ m :=
  (List.mem_filter.1 hq).1

/-! ## The sticky-application loop touches only `stickyEvent` / `eventChanges` -/

theorem applyPending_eq (st : SinkState) (k : ℤ) :
    ∃ ev sk, applyPending st k =
      { st with eventChanges := ev, stickyEvent := sk } := by
  unfold applyPending
  generalize sortInts ((alKeys st.eventChanges).filter (fun kk => kk ≤ k)) = ks
  induction ks generalizing st with
  | nil => exact ⟨st.eventChanges, st.stickyEvent, rfl⟩
  | cons a as ih =>
    simp only [List.foldl_cons]
    cases halg : alGet st.eventChanges a with
    | none =>
      simp only [halg]
      exact ih st
    | some v =>
      simp only [halg]
      exact ih { st with stickyEvent := v, eventChanges := alErase st.eventChanges a }

theorem commitOne_emitted (st : SinkState) (k : ℤ) (hem : st.initialMarkerEmitted = true) :
    ∃ r : SyncedRow, r.k = k ∧
      (commitOne st k).initialMarkerEmitted = true ∧
      (commitOne st k).log = st.log ++ [WriteEntry.row r] ∧
      (commitOne st k).tqByK = alErase st.tqByK k := by
  obtain ⟨ev, sk, hap⟩ := applyPending_eq st k
  refine ⟨⟨k, _fmt_val (Val.num ((alGet st.tqByK k).getD (k * st.delta))),
          st.channels.map (fun ch => (alGet ((alGet st.openRows k).getD []) ch).getD ""),
          (alGet ((alGet st.openRows k).getD []) "spike").getD "", sk⟩,
         rfl, ?_, ?_, ?_⟩ <;>
    simp [commitOne, hap, hem]

theorem commitOne_first (st : SinkState) (k : ℤ) (hem : st.initialMarkerEmitted = false) :
    ∃ (m : MarkerRow) (r : SyncedRow), m.k = k ∧ r.k = k ∧
      m.source = "sync" ∧ m.tq = r.tq ∧ m.event = r.event ∧ m.spike = "" ∧
      (commitOne st k).initialMarkerEmitted = true ∧
      (commitOne st k).log = st.log ++ [WriteEntry.marker m, WriteEntry.row r] ∧
      (commitOne st k).tqByK = alErase st.tqByK k := by
  obtain ⟨ev, sk, hap⟩ := applyPending_eq st k
  refine ⟨⟨k, _fmt_val (Val.num ((alGet st.tqByK k).getD (k * st.delta))), sk, "", "sync"⟩,
         ⟨k, _fmt_val (Val.num ((alGet st.tqByK k).getD (k * st.delta))),
          st.channels.map (fun ch => (alGet ((alGet st.openRows k).getD []) ch).getD ""),
          (alGet ((alGet st.openRows k).getD []) "spike").getD "", sk⟩,
         rfl, rfl, rfl, rfl, rfl, rfl, ?_, ?_, ?_⟩ <;>
    simp [commitOne, _write_marker, hap, hem]

/-! ## Preservation of the initial-marker contract -/

theorem invCore_append_row (log : List WriteEntry) (r : SyncedRow)
    (h : SyncMarkerInvCore true log) :
    SyncMarkerInvCore true (log ++ [WriteEntry.row r]) := by
  obtain ⟨m, r0, rest, hrows, hfilter, hsync, hk, htq, hev, hsp, hsrc⟩ := h
  refine ⟨m, r0, rest ++ [r], ?_, ?_, ?_, hk, htq, hev, hsp, hsrc⟩
  · rw [rowsOf_append_row, hrows]
    simp
  · rw [List.filter_append, hfilter]
    simp [keepSyncOrRow]
  · rw [markerRowsOf_append_row, hsync]

theorem invCore_append_nonsync (b : Bool) (log : List WriteEntry) (m : MarkerRow)
    (hm : m.source ≠ "sync") (h : SyncMarkerInvCore b log) :
    SyncMarkerInvCore b (log ++ [WriteEntry.marker m]) := by
  have hkeep : keepSyncOrRow (WriteEntry.marker m) = false := by
    simp [keepSyncOrRow, hm]
  cases b with
  | false =>
    obtain ⟨h1, h2, h3⟩ := h
    refine ⟨?_, ?_, ?_⟩
    · rw [List.filter_append, h1]
      simp [hkeep]
    · rw [rowsOf_append_marker, h2]
    · rw [markerRowsOf_append_marker, List.filter_append, h3]
      simp [hm]
  | true =>
    obtain ⟨mm, r0, rest, hrows, hfilter, hsync, hk, htq, hev, hsp, hsrc⟩ := h
    refine ⟨mm, r0, rest, ?_, ?_, ?_, hk, htq, hev, hsp, hsrc⟩
    · rw [rowsOf_append_marker, hrows]
    · rw [List.filter_append, hfilter]
      simp [hkeep]
    · rw [markerRowsOf_append_marker, List.filter_append, hsync]
      simp [hm]

theorem invCore_first (log : List WriteEntry) (m : MarkerRow) (r : SyncedRow)
    (h : SyncMarkerInvCore false log) (hsrc : m.source = "sync")
    (hk : m.k = r.k) (htq : m.tq = r.tq) (hev : m.event = r.event) (hsp : m.spike = "") :
    SyncMarkerInvCore true (log ++ [WriteEntry.marker m, WriteEntry.row r]) := by
  obtain ⟨h1, h2, h3⟩ := h
  have happ : log ++ [WriteEntry.marker m, WriteEntry.row r]
      = (log ++ [WriteEntry.marker m]) ++ [WriteEntry.row r] := by simp
  refine ⟨m, r, [], ?_, ?_, ?_, hk, htq, hev, hsp, hsrc⟩
  · rw [happ, rowsOf_append_row, rowsOf_append_marker, h2]
    simp
  · rw [happ, List.filter_append, List.filter_append, h1]
    simp [keepSyncOrRow, hsrc]
  · rw [happ, markerRowsOf_append_row, markerRowsOf_append_marker, List.filter_append, h3]
    simp [hsrc]

theorem write_marker_inv (st : SinkState) (k : ℤ) (t_q : ℚ) (ev sp src : String)
    (hsrc : src ≠ "sync") (h : SyncMarkerInv st) :
    SyncMarkerInv (_write_marker st k t_q ev sp src) :=
  invCore_append_nonsync st.initialMarkerEmitted st.log
    ⟨k, _fmt_val (Val.num t_q), ev, sp, src⟩ hsrc h

theorem handlePacket_inv (st : SinkState) (p : Packet)
    (hp : packetSource p ≠ some "sync")
    (h : SyncMarkerInv st) : SyncMarkerInv (handlePacket st p) := by
  cases p with
  | sample k tq dev pairs => exact h
  | event k tq label source currentAfter =>
    refine write_marker_inv _ _ _ _ _ _ (fun hs => hp ?_) h
    simp [packetSource, hs]
  | spike k tq label source =>
    refine write_marker_inv _ _ _ _ _ _ (fun hs => hp ?_) h
    simp [packetSource, hs]

theorem commitOne_inv (st : SinkState) (k : ℤ) (h : SyncMarkerInv st) :
    SyncMarkerInv (commitOne st k) := by
  unfold SyncMarkerInv at h ⊢
  cases hem : st.initialMarkerEmitted with
  | false =>
    obtain ⟨m, r, hmk, hrk, hmsrc, hmtq, hmev, hmsp, hflag, hlog, htq⟩ := commitOne_first st k hem
    rw [hflag, hlog]
    rw [hem] at h
    exact invCore_first _ _ _ h hmsrc (hmk.trans hrk.symm) hmtq hmev hmsp
  | true =>
    obtain ⟨r, hrk, hflag, hlog, htq⟩ := commitOne_emitted st k hem
    rw [hflag, hlog]
    rw [hem] at h
    exact invCore_append_row _ _ h

theorem commitList_inv (ks : List ℤ) :
    ∀ st : SinkState, SyncMarkerInv st → SyncMarkerInv (ks.foldl commitOne st) := by
  induction ks with
  | nil => exact fun st h => h
  | cons a as ih => exact fun st h => ih _ (commitOne_inv st a h)

theorem commit_until_inv (st : SinkState) (kc : ℤ) (h : SyncMarkerInv st) :
    SyncMarkerInv (_commit_until st kc) := by
  unfold _commit_until
  by_cases hcond : st.openRows.isEmpty && st.tqByK.isEmpty
  · rw [if_pos hcond]
    exact h
  · rw [if_neg hcond]
    exact commitList_inv _ st h

theorem sinkStep_inv (st : SinkState) (p : Packet)
    (hp : packetSource p ≠ some "sync") (h : SyncMarkerInv st) :
    SyncMarkerInv (sinkStep st p) :=
  commit_until_inv _ _ (handlePacket_inv st p hp h)

theorem runSink_inv (ps : List Packet) :
    ∀ st : SinkState, (∀ p ∈ ps, packetSource p ≠ some "sync") →
    SyncMarkerInv st → SyncMarkerInv (runSink st ps) := by
  induction ps with
  | nil => exact fun st _ h => h
  | cons p ps ih =>
    intro st hs h
    exact ih _ (fun q hq => hs q (List.mem_cons_of_mem p hq))
      (sinkStep_inv st p (hs p (List.mem_cons_self p ps)) h)

/-! ## Claim C4 — the initial "sync" marker -/

/-- C4 counterexample: on `C4ctrace` (an event change to "TASK" recorded at
k = 0 before the first commit) the unique `source = "sync"` marker row carries
event "TASK", not the default event "REST" the claim requires. -/
theorem C4_initial_marker_counterexample :
    (syncMarkersOf (runSink (initSink 1 3 ["A:x"] "REST") C4ctrace)).map
      (fun m => (m.k, m.event)) = [(0, "TASK")] ∧ "TASK" ≠ "REST" := by decide

/-- C4 amended: in any run whose packets never carry source `"sync"` and that
commits at least one row, the markers CSV contains exactly one
`source = "sync"` row; its `k`, `t_q` and `event` columns equal those of the
first committed data row (so its event is the sticky event after applying the
event changes at k' ≤ k — the default event only when no such change exists),
and in the write sequence it precedes every data row. -/
theorem C4_initial_marker_amended (delta : ℚ) (L : ℤ) (channels : List String)
    (defaultEvent : String) (ps : List Packet)
    (hsrc : ∀ p ∈ ps, packetSource p ≠ some "sync")
    (r0 : SyncedRow) (rest : List SyncedRow)
    (hrows : syncedOf (runSink (initSink delta L channels defaultEvent) ps) = r0 :: rest) :
    ∃ m : MarkerRow,
      syncMarkersOf (runSink (initSink delta L channels defaultEvent) ps) = [m] ∧
      m.k = r0.k ∧ m.tq = r0.tq ∧ m.event = r0.event ∧ m.spike = "" ∧ m.source = "sync" ∧
      (runSink (initSink delta L channels defaultEvent) ps).log.filter keepSyncOrRow =
        WriteEntry.marker m :: (r0 :: rest).map WriteEntry.row := by
  have h0 : SyncMarkerInv (initSink delta L channels defaultEvent) := ⟨rfl, rfl, rfl⟩
  have hinv := runSink_inv ps _ hsrc h0
  unfold SyncMarkerInv at hinv
  cases hem : (runSink (initSink delta L channels defaultEvent) ps).initialMarkerEmitted with
  | false =>
    rw [hem] at hinv
    obtain ⟨-, h2, -⟩ := hinv
    rw [syncedOf, h2] at hrows
    cases hrows
  | true =>
    rw [hem] at hinv
    obtain ⟨m, r0', rest', hrows', hfilter, hsync, hk, htq, hev, hsp, hsrc'⟩ := hinv
    rw [syncedOf] at hrows
    rw [hrows] at hrows'
    obtain ⟨hr0, hrest⟩ : r0' = r0 ∧ rest' = rest := by
      have := hrows'.symm
      exact ⟨(List.cons.injEq _ _ _ _ ▸ this).1, (List.cons.injEq _ _ _ _ ▸ this).2⟩
    subst hr0 hrest
    exact ⟨m, hsync, hk, htq, hev, hsp, hsrc', by rw [hfilter]⟩

/-- C4 witness: the all-sample trace `C4wtrace`, which commits rows k = 0, 1. -/
theorem C4_initial_marker_amended_witness :
    (∀ p ∈ C4wtrace, packetSource p ≠ some "sync") ∧
    syncedOf (runSink (initSink 1 3 ["A:x"] "REST") C4wtrace) =
      (⟨0, "0.000000", ["0.000000"], "", "REST"⟩ : SyncedRow) ::
        [⟨1, "1.000000", ["1.000000"], "", "REST"⟩] ∧
    (∃ m : MarkerRow,
      syncMarkersOf (runSink (initSink 1 3 ["A:x"] "REST") C4wtrace) = [m] ∧
      m.k = (⟨0, "0.000000", ["0.000000"], "", "REST"⟩ : SyncedRow).k ∧
      m.tq = (⟨0, "0.000000", ["0.000000"], "", "REST"⟩ : SyncedRow).tq ∧
      m.event = (⟨0, "0.000000", ["0.000000"], "", "REST"⟩ : SyncedRow).event ∧
      m.spike = "" ∧ m.source = "sync" ∧
      (runSink (initSink 1 3 ["A:x"] "REST") C4wtrace).log.filter keepSyncOrRow =
        WriteEntry.marker m ::
          ((⟨0, "0.000000", ["0.000000"], "", "REST"⟩ : SyncedRow) ::
            [⟨1, "1.000000", ["1.000000"], "", "REST"⟩]).map WriteEntry.row) :=
  ⟨by decide, by decide,
   C4_initial_marker_amended 1 3 ["A:x"] "REST" C4wtrace (by decide) _ _ (by decide)⟩

/-! ## No synced row without a sample or spike at that index -/

theorem noRowAt_handlePacket (k0 : ℤ) (st : SinkState) (p : Packet)
    (hp : packetTouches k0 p = false) (h : NoRowAt k0 st) :
    NoRowAt k0 (handlePacket st p) := by
  obtain ⟨h1, h2⟩ := h
  cases p with
  | sample k tq dev pairs =>
    have hk : ¬ k = k0 := by simpa [packetTouches] using hp
    refine ⟨fun q hq => ?_, h2⟩
    rcases alInsert_mem st.tqByK k tq q hq with hq | hq
    · exact h1 q hq
    · rw [hq]
      exact hk
  | event k tq label source currentAfter =>
    refine ⟨h1, fun r hr => ?_⟩
    rw [syncedOf] at hr
    rw [show (handlePacket st (Packet.event k tq label source currentAfter)).log
          = st.log ++ [WriteEntry.marker ⟨k, _fmt_val (Val.num tq), currentAfter, "", source⟩]
        from rfl, rowsOf_append_marker] at hr
    exact h2 r hr
  | spike k tq label source =>
    have hk : ¬ k = k0 := by simpa [packetTouches] using hp
    refine ⟨fun q hq => ?_, fun r hr => ?_⟩
    · rcases alInsert_mem st.tqByK k tq q hq with hq | hq
      · exact h1 q hq
      · rw [hq]
        exact hk
    · rw [syncedOf] at hr
      rw [show (handlePacket st (Packet.spike k tq label source)).log
            = st.log ++ [WriteEntry.marker ⟨k, _fmt_val (Val.num tq), "", label, source⟩]
          from rfl, rowsOf_append_marker] at hr
      exact h2 r hr

theorem noRowAt_commitOne (k0 : ℤ) (st : SinkState) (k : ℤ) (hk : k ≠ k0)
    (h : NoRowAt k0 st) : NoRowAt k0 (commitOne st k) := by
  obtain ⟨h1, h2⟩ := h
  cases hem : st.initialMarkerEmitted with
  | true =>
    obtain ⟨r, hrk, hflag, hlog, htq⟩ := commitOne_emitted st k hem
    refine ⟨fun q hq => ?_, fun r' hr' => ?_⟩
    · rw [htq] at hq
      exact h1 q (alErase_mem _ _ _ hq)
    · rw [syncedOf, hlog, rowsOf_append_row] at hr'
      rcases List.mem_append.1 hr' with hr' | hr'
      · exact h2 r' hr'
      · simp only [List.mem_singleton] at hr'
        rw [hr', hrk]
        exact hk
  | false =>
    obtain ⟨m, r, hmk, hrk, hmsrc, hmtq, hmev, hmsp, hflag, hlog, htq⟩ := commitOne_first st k hem
    refine ⟨fun q hq => ?_, fun r' hr' => ?_⟩
    · rw [htq] at hq
      exact h1 q (alErase_mem _ _ _ hq)
    · rw [syncedOf, hlog,
          show st.log ++ [WriteEntry.marker m, WriteEntry.row r]
            = (st.log ++ [WriteEntry.marker m]) ++ [WriteEntry.row r] by simp,
          rowsOf_append_row, rowsOf_append_marker] at hr'
      rcases List.mem_append.1 hr' with hr' | hr'
      · exact h2 r' hr'
      · simp only [List.mem_singleton] at hr'
        rw [hr', hrk]
        exact hk

theorem noRowAt_commitList (k0 : ℤ) (ks : List ℤ) :
    ∀ st : SinkState, (∀ kk ∈ ks, kk ≠ k0) → NoRowAt k0 st →
      NoRowAt k0 (ks.foldl commitOne st) := by
  induction ks with
  | nil => exact fun st _ h => h
  | cons a as ih =>
    intro st hks h
    exact ih _ (fun kk hkk => hks kk (List.mem_cons_of_mem a hkk))
      (noRowAt_commitOne k0 st a (hks a (List.mem_cons_self a as)) h)

theorem noRowAt_commit_until (k0 : ℤ) (st : SinkState) (kc : ℤ)
    (h : NoRowAt k0 st) : NoRowAt k0 (_commit_until st kc) := by
  unfold _commit_until
  by_cases hcond : st.openRows.isEmpty && st.tqByK.isEmpty
  · rw [if_pos hcond]
    exact h
  · rw [if_neg hcond]
    have hks : ∀ kk ∈ sortInts ((alKeys st.tqByK).filter (fun k => k ≤ kc)), kk ≠ k0 := by
      intro kk hkk
      have hmem : kk ∈ (alKeys st.tqByK).filter (fun k => k ≤ kc) := by
        have hperm := List.perm_insertionSort (fun a b => a ≤ b)
          ((alKeys st.tqByK).filter (fun k => k ≤ kc))
        exact hperm.mem_iff.1 hkk
      have hmem2 : kk ∈ alKeys st.tqByK := (List.mem_filter.1 hmem).1
      obtain ⟨q, hq, hqk⟩ := List.mem_map.1 hmem2
      rw [← hqk]
      exact h.1 q hq
    exact noRowAt_commitList k0 _ st hks h

theorem noRowAt_runSink (k0 : ℤ) (ps : List Packet) :
    ∀ st : SinkState, (∀ p ∈ ps, packetTouches k0 p = false) → NoRowAt k0 st →
      NoRowAt k0 (runSink st ps) := by
  induction ps with
  | nil => exact fun st _ h => h
  | cons p ps ih =>
    intro st hps h
    exact ih _ (fun q hq => hps q (List.mem_cons_of_mem p hq))
      (noRowAt_commit_until k0 _ _
        (noRowAt_handlePacket k0 st p (hps p (List.mem_cons_self p ps)) h))

/-- C10: handling an event payload changes only `event_changes` and appends
exactly one markers-CSV row — `open_rows`, `tq_by_k` and `k_seen_max` are
untouched — and consequently a frame index at which only event payloads
arrive (no sample, no spike) never produces a row in the synced CSV. -/
theorem C10_event_only_no_row (st0 : SinkState) (ek : ℤ) (et_q : ℚ)
    (currentAfter source : String)
    (delta : ℚ) (L : ℤ) (channels : List String) (defaultEvent : String)
    (ps : List Packet) (k0 : ℤ)
    (hk : ∀ p ∈ ps, packetTouches k0 p = false) :
    ((_on_event st0 ek et_q currentAfter source).openRows = st0.openRows ∧
     (_on_event st0 ek et_q currentAfter source).tqByK = st0.tqByK ∧
     (_on_event st0 ek et_q currentAfter source).kSeenMax = st0.kSeenMax ∧
     (_on_event st0 ek et_q currentAfter source).eventChanges =
       alInsert st0.eventChanges ek currentAfter ∧
     (_on_event st0 ek et_q currentAfter source).log =
       st0.log ++ [WriteEntry.marker ⟨ek, _fmt_val (Val.num et_q), currentAfter, "", source⟩]) ∧
    ∀ r ∈ syncedOf (runSink (initSink delta L channels defaultEvent) ps), r.k ≠ k0 := by
  refine ⟨⟨rfl, rfl, rfl, rfl, rfl⟩, ?_⟩
  have h0 : NoRowAt k0 (initSink delta L channels defaultEvent) :=
    ⟨fun q hq => absurd hq (List.not_mem_nil q), fun r hr => absurd hr (List.not_mem_nil r)⟩
  exact (noRowAt_runSink k0 ps _ hk h0).2

/-- C10 witness: the trace `C10wtrace` (only an event payload at k = 3) and a
concrete event packet. -/
theorem C10_event_only_no_row_witness :
    (∀ p ∈ C10wtrace, packetTouches 3 p = false) ∧
    (((_on_event (initSink 1 3 ["A:x"] "REST") 3 3 "TASK_1" "keyboard").openRows =
        (initSink 1 3 ["A:x"] "REST").openRows ∧
      (_on_event (initSink 1 3 ["A:x"] "REST") 3 3 "TASK_1" "keyboard").tqByK =
        (initSink 1 3 ["A:x"] "REST").tqByK ∧
      (_on_event (initSink 1 3 ["A:x"] "REST") 3 3 "TASK_1" "keyboard").kSeenMax =
        (initSink 1 3 ["A:x"] "REST").kSeenMax ∧
      (_on_event (initSink 1 3 ["A:x"] "REST") 3 3 "TASK_1" "keyboard").eventChanges =
        alInsert (initSink 1 3 ["A:x"] "REST").eventChanges 3 "TASK_1" ∧
      (_on_event (initSink 1 3 ["A:x"] "REST") 3 3 "TASK_1" "keyboard").log =
        (initSink 1 3 ["A:x"] "REST").log ++
          [WriteEntry.marker ⟨3, _fmt_val (Val.num 3), "TASK_1", "", "keyboard"⟩]) ∧
     ∀ r ∈ syncedOf (runSink (initSink 1 3 ["A:x"] "REST") C10wtrace), r.k ≠ 3) :=
  ⟨by decide,
   C10_event_only_no_row (initSink 1 3 ["A:x"] "REST") 3 3 "TASK_1" "keyboard"
     1 3 ["A:x"] "REST" C10wtrace 3 (by decide)⟩
